import Mathlib

/-!
# Verification of the Gym-Face-Detection matching-and-event service

A shallow embedding of `src/gym_api/app.py` (the matching-and-event
service).  Machine floats are modelled exactly: scores that flow through
the service are rationals, extended with a NaN marker where Python floats
can carry one (`PFloat`).  The external face model (`insightface` /
`cv2.imdecode` inside `embed_image_bytes`) is out of scope of this
repository's logic; route models take the extraction outcome as a
function parameter `embed : α → Except ExtractErr Emb`, with
`ExtractErr` carrying exactly the two failure messages
`embed_image_bytes` can raise.  Likewise `cosine` (float32 dot of
epsilon-normalised vectors, hence irrational in general) is passed as an
opaque numeric kernel `cos : Emb → Emb → ℚ`; every property proved here
concerns the service's control flow given the scores, never their
numeric values.  ISO-8601 timestamp strings are modelled by the instant
they denote, in seconds (`ℚ`), which is what `_should_log` computes with
after `datetime.fromisoformat(...).timestamp()`.
-/

namespace GymApi

/-- First-match lookup in an association list: the model of Python
`dict.get` (a `dict` holds at most one binding per key, and our
`dictSet` preserves that shape). -/
def dictGet {K V : Type} [DecidableEq K] : List (K × V) → K → Option V
  | [], _ => none
  | (k', v') :: rest, k => if k' = k then some v' else dictGet rest k

/-- Python `d[k] = v`: replace the binding in place when the key exists
(keeping its insertion position), append a new binding otherwise. -/
def dictSet {K V : Type} [DecidableEq K] : List (K × V) → K → V → List (K × V)
  | [], k, v => [(k, v)]
  | (k', v') :: rest, k, v =>
      if k' = k then (k, v) :: rest else (k', v') :: dictSet rest k v

/-- An embedding vector (`np.ndarray` of float32), modelled exactly over `ℚ`. -/
abbrev Emb := List ℚ

/-- The gallery `dict[str, list[float]]`, with Python dict insertion order. -/
abbrev Gallery := List (String × Emb)

/-- A Python float as the service sees it: either NaN or an exact value.
(Every finite IEEE double is a rational, so `ℚ` over-approximates the
finite floats without loss for the control-flow properties proved here.) -/
inductive PFloat : Type
  | nan : PFloat
  | val : ℚ → PFloat
deriving DecidableEq, Repr

/-- Round half to even: Python's `round` tie-breaking rule. -/
def roundHalfEven (q : ℚ) : ℤ :=
  let f := ⌊q⌋
  let r := q - f
  if r < 1/2 then f
  else if 1/2 < r then f + 1
  else if f % 2 = 0 then f else f + 1

/-- Model of `round(q, 3)` on an exact value. -/
def pyRound3q (q : ℚ) : ℚ := (roundHalfEven (q * 1000) : ℚ) / 1000

/-- Model of `round(float(x), 3)`: NaN rounds to NaN. -/
def pyRound3 : PFloat → PFloat
  | PFloat.nan => PFloat.nan
  | PFloat.val q => PFloat.val (pyRound3q q)

/-- The constant `DEDUPE_WINDOW_SEC = 30`: one event per (person, camera) within this
many seconds. -/
def DEDUPE_WINDOW_SEC : ℚ := 30

/-- The map `LAST_SEEN: dict[tuple[str, str], float]` — last time each
(person, camera) was logged, in epoch seconds. -/
abbrev LastSeen := List ((String × String) × ℚ)

/-- Model of `_should_log(person, camera, ts_iso)`: the timestamp argument is the
instant (in seconds) that `datetime.fromisoformat(ts_iso).timestamp()`
yields.  Returns the boolean result together with the updated
`LAST_SEEN` map (unchanged when the result is `false`). -/
def _should_log (last : LastSeen) (person camera : String) (now : ℚ) :
    Bool × LastSeen :=
  match dictGet last (person, camera) with
  | some last_ts =>
      if now - last_ts < DEDUPE_WINDOW_SEC then (false, last)
      else (true, dictSet last (person, camera) now)
  | none => (true, dictSet last (person, camera) now)

/-- A persisted event (`EVENTS` list element): the `timestamp` field
models the instant the stored ISO string denotes. -/
structure Event : Type where
  person : String
  score : PFloat
  camera : String
  timestamp : ℚ
deriving DecidableEq, Repr

/-- The module-level mutable state of the service: the in-memory events
list and the debounce map. -/
structure ServerState : Type where
  EVENTS : List Event
  LAST_SEEN : LastSeen
deriving DecidableEq, Repr

/-- The two `ValueError`s `embed_image_bytes` can raise. -/
inductive ExtractErr : Type
  | DecodeError : ExtractErr
  | NoFaceDetected : ExtractErr
deriving DecidableEq, Repr

/-- The reason string of each extraction failure (`str(e)` in `match`). -/
def ExtractErr.msg : ExtractErr → String
  | ExtractErr.DecodeError => "Cannot decode image"
  | ExtractErr.NoFaceDetected => "No face detected"

/-- Outcomes of the `enroll` route other than success. -/
inductive EnrollErr : Type
  | missingName : EnrollErr               -- 422, name field empty
  | noUsableImages : EnrollErr            -- 400, {"error": "no usable images"}
  | extractionFailed : ExtractErr → EnrollErr
      -- an uncaught ValueError from embed_image_bytes (HTTP 500)
deriving DecidableEq, Repr

/-- Error outcomes of the `match` route (HTTP 400 JSON bodies). -/
inductive MatchErr : Type
  | emptyGallery : MatchErr               -- {"error": "gallery empty, enroll first"}
  | extractFailed : ExtractErr → MatchErr -- {"error": str(e)}
deriving DecidableEq, Repr

/-- The reason string the `match` route returns for each error. -/
def MatchErr.msg : MatchErr → String
  | MatchErr.emptyGallery => "gallery empty, enroll first"
  | MatchErr.extractFailed e => e.msg

/-- The enroll loop `for uf in files: embs.append(embed_image_bytes(b))`:
no failure is caught, so the first extraction error aborts the whole
request; on success every image's embedding is collected in order. -/
def extractAll {α : Type} (embed : α → Except ExtractErr Emb) :
    List α → Except ExtractErr (List Emb)
  | [] => Except.ok []
  | f :: fs =>
      match embed f with
      | Except.error e => Except.error e
      | Except.ok v =>
          match extractAll embed fs with
          | Except.error e => Except.error e
          | Except.ok vs => Except.ok (v :: vs)

/-- Model of `np.mean(np.stack(embs, axis=0), axis=0)`: the element-wise mean of
a non-empty family of same-length vectors (exact arithmetic). -/
def vecMean (l : List Emb) : Emb :=
  match l with
  | [] => []
  | e :: es =>
      (es.foldl (fun acc v => List.zipWith (· + ·) acc v) e).map
        (fun x => x / (l.length : ℚ))

/-- The JSON body the `enroll` route returns on success. -/
structure EnrollOut : Type where
  enrolled : String
  images : ℕ
  people : List String
deriving DecidableEq, Repr

/-- The `enroll` route.  `gal` is the gallery `read_gallery()` returns;
the returned gallery is the one `write_gallery` persists.  Faithful to
the source: the name check first, then the extraction loop (errors
propagate uncaught), then the empty check, then the average replaces
`gal[name]`. -/
def enroll {α : Type} (embed : α → Except ExtractErr Emb) (name : String)
    (files : List α) (gal : Gallery) : Except EnrollErr (EnrollOut × Gallery) :=
  if name = "" then Except.error EnrollErr.missingName
  else
    match extractAll embed files with
    | Except.error e => Except.error (EnrollErr.extractionFailed e)
    | Except.ok embs =>
        if embs = [] then Except.error EnrollErr.noUsableImages
        else
          let avg := vecMean embs
          let gal2 := dictSet gal name avg
          Except.ok
            ({ enrolled := name, images := embs.length,
               people := gal2.map Prod.fst }, gal2)

/-- Model of `max(scores, key=scores.get)` on a non-empty scores dict: fold the
remaining entries over the first, replacing the running best only on a
strictly greater value — so the first entry attaining the maximum wins. -/
def bestEntry (s0 : String × ℚ) (rest : List (String × ℚ)) : String × ℚ :=
  rest.foldl (fun b x => if b.2 < x.2 then x else b) s0

/-- Model of the scores dict comprehension `\x7bname: cosine(np.array(vec), q) for name, vec in gal.items()\x7d`. -/
def scoresOf (cos : Emb → Emb → ℚ) (gal : Gallery) (q : Emb) :
    List (String × ℚ) :=
  gal.map (fun p => (p.1, cos p.2 q))

/-- The JSON body the `match` route returns on success. -/
structure MatchOut : Type where
  scores : List (String × ℚ)
  bestName : String
  bestScore : ℚ
  isMatch : Bool
  thr : ℚ
  logged : Bool
deriving DecidableEq, Repr

/-- The `match` route.  `gal` is `read_gallery()`'s result, `embed` the
extraction outcome for the uploaded file, `cos` the cosine kernel, `ts`
the instant `datetime.utcnow().isoformat()` denotes, `st` the module
state.  Returns the response together with the state after the request
(the state the route leaves in `EVENTS` / `LAST_SEEN`, with `EVENTS`
flushed by `save_events` whenever it changed). -/
def matchRoute {α : Type} (embed : α → Except ExtractErr Emb)
    (cos : Emb → Emb → ℚ) (gal : Gallery) (file : α) (thr : ℚ)
    (camera : String) (ts : ℚ) (st : ServerState) :
    Except MatchErr MatchOut × ServerState :=
  match gal with
  | [] => (Except.error MatchErr.emptyGallery, st)
  | g0 :: gs =>
      match embed file with
      | Except.error e => (Except.error (MatchErr.extractFailed e), st)
      | Except.ok q =>
          let best := bestEntry (g0.1, cos g0.2 q) (scoresOf cos gs q)
          let is_match : Bool := decide (thr ≤ best.2)
          let logged : Bool :=
            is_match && (_should_log st.LAST_SEEN best.1 camera ts).1
          let st' : ServerState :=
            if is_match then
              if (_should_log st.LAST_SEEN best.1 camera ts).1 then
                { EVENTS := st.EVENTS ++
                    [{ person := best.1, score := PFloat.val (pyRound3q best.2),
                       camera := camera, timestamp := ts }],
                  LAST_SEEN := (_should_log st.LAST_SEEN best.1 camera ts).2 }
              else { st with LAST_SEEN := (_should_log st.LAST_SEEN best.1 camera ts).2 }
            else st
          (Except.ok
            { scores := (scoresOf cos (g0 :: gs) q).map (fun p => (p.1, pyRound3q p.2)),
              bestName := best.1, bestScore := pyRound3q best.2,
              isMatch := is_match, thr := thr, logged := logged }, st')

/-- The pydantic `Event` request body of `POST /events` (`timestamp`
optional, modelled as the instant it denotes). -/
structure EventIn : Type where
  person : String
  score : PFloat
  camera : String
  timestamp : Option ℚ
deriving DecidableEq, Repr

/-- The `add_event` route (`POST /events`).  `nowTs` is the instant
`datetime.utcnow().isoformat()` denotes when the body carries no
timestamp.  Returns (status string, count) with the state after the
request; the appended `EVENTS` are flushed by `save_events`. -/
def add_event (ev : EventIn) (nowTs : ℚ) (st : ServerState) :
    (String × ℕ) × ServerState :=
  let ts := ev.timestamp.getD nowTs
  if (_should_log st.LAST_SEEN ev.person ev.camera ts).1 then
    (("logged", st.EVENTS.length + 1),
      { EVENTS := st.EVENTS ++
          [{ person := ev.person, score := pyRound3 ev.score,
             camera := ev.camera, timestamp := ts }],
        LAST_SEEN := (_should_log st.LAST_SEEN ev.person ev.camera ts).2 })
  else
    (("skipped_duplicate", st.EVENTS.length),
      { st with LAST_SEEN := (_should_log st.LAST_SEEN ev.person ev.camera ts).2 })

/-!
## File-write model

`save_events` and `write_gallery` persist with `Path.write_text`, which
opens the canonical file in mode `w` (truncating it) and then writes the
serialized string.  We model a crash-observable file system for the one
canonical file plus a scratch temporary, as a list of primitive steps; a
crash may interrupt after any prefix of the steps.
-/

/-- Contents of the canonical file and of a temporary sibling
(`none` = the file does not exist). -/
structure FsState : Type where
  main : Option String
  tmp : Option String
deriving DecidableEq, Repr

/-- Primitive durable-storage steps. -/
inductive FsOp : Type
  | truncateMain : FsOp                -- open the canonical file in mode w
  | appendMain : String → FsOp         -- write into the open canonical file
  | writeTmp : String → FsOp           -- create/overwrite the temporary file
  | renameTmpToMain : FsOp             -- atomic rename(tmp, main)
deriving DecidableEq, Repr

/-- Effect of one step. -/
def FsOp.apply (fs : FsState) : FsOp → FsState
  | FsOp.truncateMain => { fs with main := some "" }
  | FsOp.appendMain s => { fs with main := some ((fs.main.getD "") ++ s) }
  | FsOp.writeTmp s => { fs with tmp := some s }
  | FsOp.renameTmpToMain => { main := fs.tmp, tmp := none }

/-- Run a sequence of steps to completion. -/
def runOps (fs : FsState) (ops : List FsOp) : FsState :=
  ops.foldl FsOp.apply fs

/-- Model of `Path.write_text(content)`: truncate the canonical file, then write
the string into it. -/
def write_text_ops (content : String) : List FsOp :=
  [FsOp.truncateMain, FsOp.appendMain content]

/-- Model of `save_events()`: `EVENTS_PATH.write_text(json.dumps(EVENTS, indent=2))`;
the serialized string is the argument. -/
def save_events_ops (serialized : String) : List FsOp :=
  write_text_ops serialized

/-- Model of `write_gallery(d)`: `GALLERY_PATH.write_text(json.dumps(d, indent=2))`;
the serialized string is the argument. -/
def write_gallery_ops (serialized : String) : List FsOp :=
  write_text_ops serialized

/-- Modelled from the spec: the write-to-a-temporary-location-then-
atomically-replace pattern the spec names as the all-or-nothing write
(this pattern appears nowhere in the source; it is stated here only to
compare the source's write against it). -/
def atomic_replace_ops (content : String) : List FsOp :=
  [FsOp.writeTmp content, FsOp.renameTmpToMain]

/-- A write procedure is all-or-nothing when a reader observing the
canonical file after a crash at any step boundary sees either the old
contents or the complete new contents. -/
def allOrNothing (ops : List FsOp) (fs : FsState) (newContent : String) : Prop :=
  ∀ i : ℕ, (runOps fs (ops.take i)).main = fs.main ∨
    (runOps fs (ops.take i)).main = some newContent

/-!
## Shared lemmas
-/

/-- Looking up the key just set returns the value just set. -/
theorem dictGet_dictSet_self {K V : Type} [DecidableEq K]
    (l : List (K × V)) (k : K) (v : V) :
    dictGet (dictSet l k v) k = some v := by
  induction l with
  | nil => simp [dictGet, dictSet]
  | cons p rest ih =>
      obtain ⟨k', v'⟩ := p
      by_cases h : k' = k
      · simp [dictGet, dictSet, h]
      · simp [dictGet, dictSet, h, ih]

/-- Setting one key leaves every other key's lookup unchanged. -/
theorem dictGet_dictSet_ne {K V : Type} [DecidableEq K]
    (l : List (K × V)) (k k' : K) (v : V) (hne : k' ≠ k) :
    dictGet (dictSet l k v) k' = dictGet l k' := by
  have hkk' : k ≠ k' := hne.symm
  induction l with
  | nil => simp [dictGet, dictSet, hkk']
  | cons p rest ih =>
      obtain ⟨k0, v0⟩ := p
      by_cases h : k0 = k
      · subst h
        simp [dictGet, dictSet, hkk']
      · by_cases h' : k0 = k'
        · simp [dictGet, dictSet, h, h', hne]
        · simp [dictGet, dictSet, h, h', ih]

/-- The call `_should_log` never deletes a key, and replaces a key's stored
timestamp only by one at least a full debounce window newer. -/
theorem should_log_mono (last : LastSeen) (person camera : String) (t : ℚ)
    (k : String × String) (prev : ℚ) (h : dictGet last k = some prev) :
    ∃ cur, dictGet (_should_log last person camera t).2 k = some cur ∧
      (cur = prev ∨ prev + DEDUPE_WINDOW_SEC ≤ cur) := by
  unfold _should_log
  by_cases hk : k = (person, camera)
  · subst hk
    rw [h]
    by_cases hd : t - prev < DEDUPE_WINDOW_SEC
    · exact ⟨prev, by simp [hd, h], Or.inl rfl⟩
    · refine ⟨t, by simp [hd, dictGet_dictSet_self], Or.inr ?_⟩
      have := not_lt.mp hd
      linarith
  · have hne : k ≠ (person, camera) := hk
    cases hp : dictGet last (person, camera) with
    | none => exact ⟨prev, by simp [dictGet_dictSet_ne _ _ _ _ hne, h], Or.inl rfl⟩
    | some last_ts =>
        by_cases hd : t - last_ts < DEDUPE_WINDOW_SEC
        · exact ⟨prev, by simp [hd, h], Or.inl rfl⟩
        · exact ⟨prev, by simp [hd, dictGet_dictSet_ne _ _ _ _ hne, h], Or.inl rfl⟩

/-- The fold `bestEntry` (Python's `max` with a key function) picks the first
entry of the list attaining the maximum value: every entry before it
scores strictly less, every entry of the list scores at most it. -/
theorem bestEntry_firstMax :
    ∀ (rest : List (String × ℚ)) (s0 : String × ℚ),
      ∃ pre suf, s0 :: rest = pre ++ bestEntry s0 rest :: suf ∧
        (∀ y ∈ pre, y.2 < (bestEntry s0 rest).2) ∧
        (∀ y ∈ s0 :: rest, y.2 ≤ (bestEntry s0 rest).2) := by
  intro rest
  induction rest with
  | nil =>
      intro s0
      exact ⟨[], [], rfl, by simp, by simp [bestEntry]⟩
  | cons x xs ih =>
      intro s0
      have hstep : bestEntry s0 (x :: xs) =
          bestEntry (if s0.2 < x.2 then x else s0) xs := rfl
      by_cases hx : s0.2 < x.2
      · -- the running best becomes x
        obtain ⟨pre, suf, hsplit, hpre, hmax⟩ := ih x
        rw [hstep, if_pos hx]
        refine ⟨s0 :: pre, suf, by rw [List.cons_append, ← hsplit], ?_, ?_⟩
        · intro y hy
          rcases List.mem_cons.mp hy with hy | hy
          · subst hy
            have hxle : x.2 ≤ (bestEntry x xs).2 := hmax x (List.mem_cons_self x xs)
            exact lt_of_lt_of_le hx hxle
          · exact hpre y hy
        · intro y hy
          rcases List.mem_cons.mp hy with hy | hy
          · subst hy
            have hxle : x.2 ≤ (bestEntry x xs).2 := hmax x (List.mem_cons_self x xs)
            exact le_of_lt (lt_of_lt_of_le hx hxle)
          · exact hmax y hy
      · -- the running best stays s0
        obtain ⟨pre, suf, hsplit, hpre, hmax⟩ := ih s0
        rw [hstep, if_neg hx]
        cases pre with
        | nil =>
            rw [List.nil_append] at hsplit
            have hbest : bestEntry s0 xs = s0 :=
              ((List.cons_eq_cons.mp hsplit).1).symm
            refine ⟨[], x :: xs, by simp [hbest], by simp, ?_⟩
            intro y hy
            rcases List.mem_cons.mp hy with hy | hy
            · subst hy; exact le_of_eq (by rw [hbest])
            rcases List.mem_cons.mp hy with hy | hy
            · subst hy
              rw [hbest]
              exact le_of_not_lt hx
            · exact hmax y (List.mem_cons_of_mem s0 hy)
        | cons p pre2 =>
            rw [List.cons_append] at hsplit
            have hs0p : s0 = p := (List.cons_eq_cons.mp hsplit).1
            have hxs : xs = pre2 ++ bestEntry s0 xs :: suf :=
              (List.cons_eq_cons.mp hsplit).2
            have hs0lt : s0.2 < (bestEntry s0 xs).2 := by
              have h1 := hpre p (List.mem_cons_self p pre2)
              rw [← hs0p] at h1
              exact h1
            refine ⟨s0 :: x :: pre2, suf, ?_, ?_, ?_⟩
            · rw [List.cons_append, List.cons_append, ← hxs]
            · intro y hy
              rcases List.mem_cons.mp hy with hy | hy
              · subst hy; exact hs0lt
              rcases List.mem_cons.mp hy with hy | hy
              · subst hy
                exact lt_of_le_of_lt (le_of_not_lt hx) hs0lt
              · exact hpre y (List.mem_cons_of_mem p hy)
            · intro y hy
              rcases List.mem_cons.mp hy with hy | hy
              · subst hy; exact le_of_lt hs0lt
              rcases List.mem_cons.mp hy with hy | hy
              · subst hy
                exact le_of_lt (lt_of_le_of_lt (le_of_not_lt hx) hs0lt)
              · exact hmax y (List.mem_cons_of_mem s0 hy)

/-!
## Claim theorems
-/

/-- C1: `_should_log` returns true iff there is no prior record for the
(person, camera) key or the elapsed time since the prior record is at
least the 30-second debounce window; it records the event time as the
key's new last-accepted time exactly when it returns true; and in the
concrete boundary scenario a second call at t = 29.999 after one at
t = 0 is suppressed while a second call at t = 30.001 is accepted. -/
theorem should_log_spec (last : LastSeen) (person camera : String) (t : ℚ) :
    ((_should_log last person camera t).1 = true ↔
      dictGet last (person, camera) = none ∨
        ∃ prev, dictGet last (person, camera) = some prev ∧
          DEDUPE_WINDOW_SEC ≤ t - prev) ∧
    ((_should_log last person camera t).1 = true →
      (_should_log last person camera t).2 = dictSet last (person, camera) t) ∧
    ((_should_log last person camera t).1 = false →
      (_should_log last person camera t).2 = last) ∧
    (_should_log (_should_log ([] : LastSeen) "p" "cam" 0).2 "p" "cam"
      (29999/1000)).1 = false ∧
    (_should_log (_should_log ([] : LastSeen) "p" "cam" 0).2 "p" "cam"
      (30001/1000)).1 = true := by
  have h1 : _should_log ([] : LastSeen) "p" "cam" 0 = (true, [(("p", "cam"), 0)]) := by
    simp [_should_log, dictGet, dictSet]
  have hb1 : (_should_log (_should_log ([] : LastSeen) "p" "cam" 0).2 "p" "cam"
      (29999/1000)).1 = false := by
    rw [h1]
    simp only [_should_log, dictGet, DEDUPE_WINDOW_SEC]
    norm_num
  have hb2 : (_should_log (_should_log ([] : LastSeen) "p" "cam" 0).2 "p" "cam"
      (30001/1000)).1 = true := by
    rw [h1]
    simp only [_should_log, dictGet, DEDUPE_WINDOW_SEC]
    norm_num
  refine ⟨?_, ?_, ?_, hb1, hb2⟩
  · unfold _should_log
    cases hget : dictGet last (person, camera) with
    | none => simp
    | some prev =>
        by_cases hd : t - prev < DEDUPE_WINDOW_SEC
        · simp [hd, not_le.mpr hd]
        · simp [hd, not_lt.mp hd]
  · unfold _should_log
    cases hget : dictGet last (person, camera) with
    | none => simp
    | some prev =>
        by_cases hd : t - prev < DEDUPE_WINDOW_SEC
        · simp [hd]
        · simp [hd]
  · unfold _should_log
    cases hget : dictGet last (person, camera) with
    | none => simp
    | some prev =>
        by_cases hd : t - prev < DEDUPE_WINDOW_SEC
        · simp [hd]
        · simp [hd]

/-- C9: across every operation that touches the debounce cache
(`_should_log` itself, the `POST /events` handler, and the `/match`
handler), a (person, camera) key present in `LAST_SEEN` is never
removed, and its stored last-accepted timestamp is only ever replaced
by a strictly newer one — in fact one at least a whole debounce window
newer — so no accepted call can move a key's last-accepted time
backwards. -/
theorem last_seen_monotone {α : Type} (embed : α → Except ExtractErr Emb)
    (cos : Emb → Emb → ℚ) (gal : Gallery) (file : α) (thr : ℚ)
    (person camera : String) (t ts nowTs : ℚ) (ev : EventIn)
    (st : ServerState) (k : String × String) (prev : ℚ)
    (h : dictGet st.LAST_SEEN k = some prev) :
    (∃ cur, dictGet (_should_log st.LAST_SEEN person camera t).2 k = some cur ∧
      (cur = prev ∨ prev + DEDUPE_WINDOW_SEC ≤ cur)) ∧
    (∃ cur, dictGet (add_event ev nowTs st).2.LAST_SEEN k = some cur ∧
      (cur = prev ∨ prev + DEDUPE_WINDOW_SEC ≤ cur)) ∧
    (∃ cur, dictGet (matchRoute embed cos gal file thr camera ts st).2.LAST_SEEN k
        = some cur ∧ (cur = prev ∨ prev + DEDUPE_WINDOW_SEC ≤ cur)) := by
  refine ⟨should_log_mono _ _ _ _ _ _ h, ?_, ?_⟩
  · have hA : (add_event ev nowTs st).2.LAST_SEEN
        = (_should_log st.LAST_SEEN ev.person ev.camera
            (ev.timestamp.getD nowTs)).2 := by
      by_cases hb : (_should_log st.LAST_SEEN ev.person ev.camera
          (ev.timestamp.getD nowTs)).1 = true
      · simp [add_event, hb]
      · simp [add_event, hb]
    rw [hA]
    exact should_log_mono _ _ _ _ _ _ h
  · cases gal with
    | nil =>
        simp only [matchRoute]
        exact ⟨prev, h, Or.inl rfl⟩
    | cons g0 gs =>
        cases hemb : embed file with
        | error e =>
            simp only [matchRoute, hemb]
            exact ⟨prev, h, Or.inl rfl⟩
        | ok q =>
            by_cases hm : thr ≤ (bestEntry (g0.1, cos g0.2 q) (scoresOf cos gs q)).2
            · have hM : (matchRoute embed cos (g0 :: gs) file thr camera ts st).2.LAST_SEEN
                  = (_should_log st.LAST_SEEN
                      (bestEntry (g0.1, cos g0.2 q) (scoresOf cos gs q)).1
                      camera ts).2 := by
                by_cases hl : (_should_log st.LAST_SEEN
                    (bestEntry (g0.1, cos g0.2 q) (scoresOf cos gs q)).1
                    camera ts).1 = true
                · simp [matchRoute, hemb, hm, hl]
                · simp [matchRoute, hemb, hm, hl]
              rw [hM]
              exact should_log_mono _ _ _ _ _ _ h
            · have hM : (matchRoute embed cos (g0 :: gs) file thr camera ts st).2.LAST_SEEN
                  = st.LAST_SEEN := by
                simp [matchRoute, hemb, hm]
              rw [hM]
              exact ⟨prev, h, Or.inl rfl⟩

/-- C5: when two (or more) gallery names tie for the maximum cosine
score, the matcher still selects `bestName` deterministically: running
the match twice on the same gallery snapshot and query yields the same
`bestName`, and that name is exactly the first entry of the scores list
(gallery insertion order) attaining the maximum — every earlier entry
scores strictly less, every entry scores at most it. -/
theorem match_tiebreak_deterministic {α : Type}
    (embed : α → Except ExtractErr Emb) (cos : Emb → Emb → ℚ)
    (g0 : String × Emb) (gs : List (String × Emb)) (file : α) (thr : ℚ)
    (camera : String) (ts : ℚ) (st : ServerState) (q : Emb)
    (hq : embed file = Except.ok q)
    (_htie : ∃ a ∈ g0 :: gs, ∃ b ∈ g0 :: gs, a.1 ≠ b.1 ∧ cos a.2 q = cos b.2 q) :
    (matchRoute embed cos (g0 :: gs) file thr camera ts st).1
      = (matchRoute embed cos (g0 :: gs) file thr camera ts st).1 ∧
    ∀ out, (matchRoute embed cos (g0 :: gs) file thr camera ts st).1
        = Except.ok out →
      ∃ b pre suf, scoresOf cos (g0 :: gs) q = pre ++ b :: suf ∧
        b.1 = out.bestName ∧ (∀ y ∈ pre, y.2 < b.2) ∧
        ∀ y ∈ scoresOf cos (g0 :: gs) q, y.2 ≤ b.2 := by
  refine ⟨rfl, ?_⟩
  intro out hout
  have hred : (matchRoute embed cos (g0 :: gs) file thr camera ts st).1
      = Except.ok
        { scores := (scoresOf cos (g0 :: gs) q).map (fun p => (p.1, pyRound3q p.2)),
          bestName := (bestEntry (g0.1, cos g0.2 q) (scoresOf cos gs q)).1,
          bestScore := pyRound3q (bestEntry (g0.1, cos g0.2 q) (scoresOf cos gs q)).2,
          isMatch := decide (thr ≤ (bestEntry (g0.1, cos g0.2 q) (scoresOf cos gs q)).2),
          thr := thr,
          logged := decide (thr ≤ (bestEntry (g0.1, cos g0.2 q) (scoresOf cos gs q)).2)
            && (_should_log st.LAST_SEEN
                (bestEntry (g0.1, cos g0.2 q) (scoresOf cos gs q)).1 camera ts).1 } := by
    simp [matchRoute, hq]
  rw [hred] at hout
  have hout' := (Except.ok.injEq _ _ ▸ hout :)
  obtain ⟨pre, suf, hsplit, hpre, hmax⟩ :=
    bestEntry_firstMax (scoresOf cos gs q) (g0.1, cos g0.2 q)
  refine ⟨bestEntry (g0.1, cos g0.2 q) (scoresOf cos gs q), pre, suf, ?_, ?_, hpre, ?_⟩
  · exact hsplit
  · rw [← hout']
  · exact hmax

/-- C6: a `/match` request against an empty gallery snapshot fails with
the distinct empty-gallery error — whose reason string differs from
every extraction error's — and never yields a score map / MatchResult
(an `Except.ok` value), for any uploaded file, threshold, camera and
server state. -/
theorem match_empty_gallery_error {α : Type}
    (embed : α → Except ExtractErr Emb) (cos : Emb → Emb → ℚ) (file : α)
    (thr : ℚ) (camera : String) (ts : ℚ) (st : ServerState) :
    matchRoute embed cos [] file thr camera ts st
      = (Except.error MatchErr.emptyGallery, st) ∧
    (∀ out : MatchOut,
      (matchRoute embed cos [] file thr camera ts st).1 ≠ Except.ok out) ∧
    ∀ e : ExtractErr, MatchErr.emptyGallery.msg ≠ (MatchErr.extractFailed e).msg := by
  refine ⟨rfl, by simp [matchRoute], ?_⟩
  intro e
  cases e <;> simp [MatchErr.msg, ExtractErr.msg]

/-- C7: a `/match` request whose best score falls below the caller's
threshold leaves the server state — the event store and the debounce
cache — completely unchanged and reports `logged = false`: an
unmatched query never appends an Event from this code path. -/
theorem match_below_thr_no_event {α : Type}
    (embed : α → Except ExtractErr Emb) (cos : Emb → Emb → ℚ)
    (g0 : String × Emb) (gs : List (String × Emb)) (file : α) (thr : ℚ)
    (camera : String) (ts : ℚ) (st : ServerState) (q : Emb)
    (hq : embed file = Except.ok q)
    (hlt : (bestEntry (g0.1, cos g0.2 q) (scoresOf cos gs q)).2 < thr) :
    (matchRoute embed cos (g0 :: gs) file thr camera ts st).2 = st ∧
    (matchRoute embed cos (g0 :: gs) file thr camera ts st).2.EVENTS = st.EVENTS ∧
    ∃ out, (matchRoute embed cos (g0 :: gs) file thr camera ts st).1
        = Except.ok out ∧ out.logged = false ∧ out.isMatch = false := by
  have hnm : ¬ thr ≤ (bestEntry (g0.1, cos g0.2 q) (scoresOf cos gs q)).2 :=
    not_le.mpr hlt
  have hred : (matchRoute embed cos (g0 :: gs) file thr camera ts st).1
      = Except.ok
        { scores := (scoresOf cos (g0 :: gs) q).map (fun p => (p.1, pyRound3q p.2)),
          bestName := (bestEntry (g0.1, cos g0.2 q) (scoresOf cos gs q)).1,
          bestScore := pyRound3q (bestEntry (g0.1, cos g0.2 q) (scoresOf cos gs q)).2,
          isMatch := decide (thr ≤ (bestEntry (g0.1, cos g0.2 q) (scoresOf cos gs q)).2),
          thr := thr,
          logged := decide (thr ≤ (bestEntry (g0.1, cos g0.2 q) (scoresOf cos gs q)).2)
            && (_should_log st.LAST_SEEN
                (bestEntry (g0.1, cos g0.2 q) (scoresOf cos gs q)).1 camera ts).1 } := by
    simp [matchRoute, hq]
  refine ⟨by simp [matchRoute, hq, hnm], by simp [matchRoute, hq, hnm], ?_⟩
  refine ⟨_, hred, ?_, ?_⟩
  · simp [hnm]
  · simp [hnm]

/-- C10: the empty-gallery check runs before the uploaded image is
decoded or face-extracted: with an empty gallery the result is the
empty-gallery error even when extraction would fail (undecodable bytes
or no detected face) — the empty-gallery error takes precedence over
`DecodeError` and `NoFaceDetected`. -/
theorem match_empty_gallery_precedence {α : Type} (e : ExtractErr)
    (cos : Emb → Emb → ℚ) (file : α) (thr : ℚ) (camera : String) (ts : ℚ)
    (st : ServerState) :
    (matchRoute (fun _ => Except.error e) cos [] file thr camera ts st).1
      = Except.error MatchErr.emptyGallery ∧
    (matchRoute (fun _ => Except.error e) cos [] file thr camera ts st).1
      ≠ Except.error (MatchErr.extractFailed e) := by
  refine ⟨rfl, ?_⟩
  simp [matchRoute]

/-- C2: at the failing input — a two-image enrollment whose first image
is undecodable and whose second yields an embedding — the enroll
handler does not succeed with the average of the usable images as the
claim states: the extraction loop catches nothing, so the first
failure propagates out of the handler (an uncaught ValueError, HTTP
500), and the no-usable-images outcome is not produced either. -/
theorem enroll_mixed_batch_propagates :
    enroll (fun i => if i = 0 then Except.error ExtractErr.DecodeError
        else Except.ok [1]) "alice" [0, 1] []
      = Except.error (EnrollErr.extractionFailed ExtractErr.DecodeError) ∧
    enroll (fun i => if i = 0 then Except.error ExtractErr.DecodeError
        else Except.ok [1]) "alice" [1, 0] []
      = Except.error (EnrollErr.extractionFailed ExtractErr.DecodeError) := by
  constructor <;> rfl

/-- C3 counterexample: a `POST /events` body with a NaN score on a
fresh server is not rejected — the handler answers "logged" and
appends an Event whose score is NaN to the persisted collection. -/
theorem add_event_nan_appended :
    (add_event { person := "p", score := PFloat.nan, camera := "cam",
                 timestamp := some 0 } 0 { EVENTS := [], LAST_SEEN := [] }).1.1
      = "logged" ∧
    (add_event { person := "p", score := PFloat.nan, camera := "cam",
                 timestamp := some 0 } 0 { EVENTS := [], LAST_SEEN := [] }).2.EVENTS
      = [{ person := "p", score := PFloat.nan, camera := "cam", timestamp := 0 }] := by
  constructor <;> rfl

/-- C3 amended: the `POST /events` handler performs no NaN check at
all: whenever the debounce accepts the (person, camera, timestamp),
the event is appended with its score passed through `round(·, 3)` —
which maps NaN to NaN — so an Event with a NaN score is appended and
the request is answered "logged". -/
theorem add_event_no_nan_check (p c : String) (ts0 nowTs : ℚ)
    (st : ServerState)
    (hacc : (_should_log st.LAST_SEEN p c ts0).1 = true) :
    (add_event { person := p, score := PFloat.nan, camera := c,
                 timestamp := some ts0 } nowTs st).1.1 = "logged" ∧
    (add_event { person := p, score := PFloat.nan, camera := c,
                 timestamp := some ts0 } nowTs st).2.EVENTS
      = st.EVENTS ++ [{ person := p, score := PFloat.nan, camera := c,
                        timestamp := ts0 }] := by
  constructor <;> simp [add_event, Option.getD, hacc, pyRound3]

/-- C4 counterexample: the event store's flush (`save_events`, a plain
`write_text`) is not an all-or-nothing write: starting from an old
persisted state, a crash after the truncate step leaves the canonical
file empty — a reader observes neither the old nor the new contents. -/
theorem write_text_not_all_or_nothing :
    ¬ allOrNothing (save_events_ops "[new]")
        { main := some "[old]", tmp := none } "[new]" := by
  intro h
  have h1 := h 1
  revert h1
  decide

/-- C4 amended: every successful mutation is flushed synchronously —
after `save_events` / `write_gallery` complete, the canonical file
holds exactly the new serialized state — but the write is an in-place
truncate-then-write, not a write-to-temporary-plus-atomic-replace: a
crash between the truncate and the write leaves a reader observing an
empty file, which is neither the old state nor the new one.  The
spec's temp-then-rename pattern, stated for contrast, is
all-or-nothing from the same starting state. -/
theorem write_text_sync_not_atomic (old s : String) (tmp0 : Option String)
    (hold : old ≠ "") (hs : s ≠ "") :
    (runOps { main := some old, tmp := tmp0 } (save_events_ops s)).main = some s ∧
    (runOps { main := some old, tmp := tmp0 } (write_gallery_ops s)).main = some s ∧
    ¬ allOrNothing (save_events_ops s) { main := some old, tmp := tmp0 } s ∧
    allOrNothing (atomic_replace_ops s) { main := some old, tmp := tmp0 } s := by
  refine ⟨rfl, rfl, ?_, ?_⟩
  · intro h
    have h1 := h 1
    simp only [save_events_ops, write_text_ops, List.take, runOps, List.foldl,
      FsOp.apply] at h1
    rcases h1 with h1 | h1
    · exact hold (Option.some.injEq _ _ ▸ h1).symm
    · exact hs (Option.some.injEq _ _ ▸ h1).symm
  · intro i
    match i with
    | 0 => exact Or.inl rfl
    | 1 => exact Or.inl rfl
    | (n + 2) =>
        refine Or.inr ?_
        have htake : (atomic_replace_ops s).take (n + 2) = atomic_replace_ops s :=
          List.take_of_length_le (by simp [atomic_replace_ops])
        rw [htake]
        rfl

/-- C8: for every non-empty list of successfully extracted sample
embeddings, enrollment stores exactly their element-wise mean as the
reference embedding for the name, fully replacing whatever entry the
gallery previously held for that name — the stored embedding is the
same for every prior gallery, so the old embedding contributes
nothing, and enrolling the same single sample twice yields an
identical reference embedding both times. -/
theorem enroll_stores_mean {α : Type} (embed : α → Except ExtractErr Emb)
    (name : String) (files : List α) (embs : List Emb) (gal : Gallery)
    (hname : name ≠ "") (hex : extractAll embed files = Except.ok embs)
    (hne : embs ≠ []) :
    enroll embed name files gal
      = Except.ok
        ({ enrolled := name, images := embs.length,
           people := (dictSet gal name (vecMean embs)).map Prod.fst },
         dictSet gal name (vecMean embs)) ∧
    dictGet (dictSet gal name (vecMean embs)) name = some (vecMean embs) := by
  refine ⟨?_, dictGet_dictSet_self _ _ _⟩
  unfold enroll
  rw [if_neg hname, hex]
  simp [hne]

/-!
## Witnesses: each conditional claim theorem applied at a concrete input
-/

/-- Witness for the amended C3 statement at a concrete input. -/
theorem add_event_no_nan_check_witness :
    (_should_log ({ EVENTS := [], LAST_SEEN := [] } : ServerState).LAST_SEEN
        "unknown" "cam" 0).1 = true ∧
    ((add_event { person := "unknown", score := PFloat.nan, camera := "cam",
                  timestamp := some 0 } 0
        { EVENTS := [], LAST_SEEN := [] }).1.1 = "logged" ∧
     (add_event { person := "unknown", score := PFloat.nan, camera := "cam",
                  timestamp := some 0 } 0
        { EVENTS := [], LAST_SEEN := [] }).2.EVENTS
       = ({ EVENTS := [], LAST_SEEN := [] } : ServerState).EVENTS ++
           [{ person := "unknown", score := PFloat.nan, camera := "cam",
              timestamp := 0 }]) :=
  ⟨rfl, add_event_no_nan_check "unknown" "cam" 0 0
    { EVENTS := [], LAST_SEEN := [] } rfl⟩

/-- Witness for the amended C4 statement at a concrete input. -/
theorem write_text_sync_not_atomic_witness :
    ("[0]" : String) ≠ "" ∧ ("[1]" : String) ≠ "" ∧
    ((runOps { main := some "[0]", tmp := none } (save_events_ops "[1]")).main
        = some "[1]" ∧
     (runOps { main := some "[0]", tmp := none } (write_gallery_ops "[1]")).main
        = some "[1]" ∧
     ¬ allOrNothing (save_events_ops "[1]") { main := some "[0]", tmp := none } "[1]" ∧
     allOrNothing (atomic_replace_ops "[1]") { main := some "[0]", tmp := none } "[1]") :=
  ⟨by decide, by decide,
    write_text_sync_not_atomic "[0]" "[1]" none (by decide) (by decide)⟩

/-- Witness for C5 at a concrete input: a two-entry gallery whose
entries tie exactly. -/
theorem match_tiebreak_deterministic_witness :
    ((fun _ : ℕ => (Except.ok ([] : Emb) : Except ExtractErr Emb)) 0
        = Except.ok ([] : Emb)) ∧
    (∃ a ∈ ("alice", ([] : Emb)) :: [("bob", ([] : Emb))],
       ∃ b ∈ ("alice", ([] : Emb)) :: [("bob", ([] : Emb))],
         a.1 ≠ b.1 ∧ (fun _ _ : Emb => (0 : ℚ)) a.2 [] = (fun _ _ : Emb => (0 : ℚ)) b.2 []) ∧
    ((matchRoute (fun _ : ℕ => Except.ok ([] : Emb)) (fun _ _ : Emb => (0 : ℚ))
        (("alice", ([] : Emb)) :: [("bob", ([] : Emb))]) 0 1 "simulator" 0
        { EVENTS := [], LAST_SEEN := [] }).1
      = (matchRoute (fun _ : ℕ => Except.ok ([] : Emb)) (fun _ _ : Emb => (0 : ℚ))
        (("alice", ([] : Emb)) :: [("bob", ([] : Emb))]) 0 1 "simulator" 0
        { EVENTS := [], LAST_SEEN := [] }).1 ∧
     ∀ out, (matchRoute (fun _ : ℕ => Except.ok ([] : Emb)) (fun _ _ : Emb => (0 : ℚ))
        (("alice", ([] : Emb)) :: [("bob", ([] : Emb))]) 0 1 "simulator" 0
        { EVENTS := [], LAST_SEEN := [] }).1 = Except.ok out →
       ∃ b pre suf,
         scoresOf (fun _ _ : Emb => (0 : ℚ))
             (("alice", ([] : Emb)) :: [("bob", ([] : Emb))]) [] = pre ++ b :: suf ∧
         b.1 = out.bestName ∧ (∀ y ∈ pre, y.2 < b.2) ∧
         ∀ y ∈ scoresOf (fun _ _ : Emb => (0 : ℚ))
             (("alice", ([] : Emb)) :: [("bob", ([] : Emb))]) [], y.2 ≤ b.2) :=
  ⟨rfl,
   ⟨("alice", ([] : Emb)), by simp, ("bob", ([] : Emb)), by simp, by decide, rfl⟩,
   match_tiebreak_deterministic (fun _ : ℕ => Except.ok ([] : Emb))
     (fun _ _ : Emb => (0 : ℚ)) ("alice", ([] : Emb)) [("bob", ([] : Emb))]
     0 1 "simulator" 0 { EVENTS := [], LAST_SEEN := [] } [] rfl
     ⟨("alice", ([] : Emb)), by simp, ("bob", ([] : Emb)), by simp, by decide, rfl⟩⟩

/-- Witness for C7 at a concrete input: a single-entry gallery scoring
0 against a threshold of 1. -/
theorem match_below_thr_no_event_witness :
    ((fun _ : ℕ => (Except.ok ([1] : Emb) : Except ExtractErr Emb)) 0
        = Except.ok ([1] : Emb)) ∧
    (bestEntry (("alice", ([1] : Emb)).1, (fun _ _ : Emb => (0 : ℚ)) ("alice", ([1] : Emb)).2 [1])
        (scoresOf (fun _ _ : Emb => (0 : ℚ)) [] [1])).2 < 1 ∧
    ((matchRoute (fun _ : ℕ => Except.ok ([1] : Emb)) (fun _ _ : Emb => (0 : ℚ))
        (("alice", ([1] : Emb)) :: []) 0 1 "simulator" 0
        { EVENTS := [], LAST_SEEN := [] }).2 = { EVENTS := [], LAST_SEEN := [] } ∧
     (matchRoute (fun _ : ℕ => Except.ok ([1] : Emb)) (fun _ _ : Emb => (0 : ℚ))
        (("alice", ([1] : Emb)) :: []) 0 1 "simulator" 0
        { EVENTS := [], LAST_SEEN := [] }).2.EVENTS
       = ({ EVENTS := [], LAST_SEEN := [] } : ServerState).EVENTS ∧
     ∃ out, (matchRoute (fun _ : ℕ => Except.ok ([1] : Emb)) (fun _ _ : Emb => (0 : ℚ))
        (("alice", ([1] : Emb)) :: []) 0 1 "simulator" 0
        { EVENTS := [], LAST_SEEN := [] }).1 = Except.ok out ∧
       out.logged = false ∧ out.isMatch = false) :=
  ⟨rfl, by norm_num [bestEntry, scoresOf],
   match_below_thr_no_event (fun _ : ℕ => Except.ok ([1] : Emb))
     (fun _ _ : Emb => (0 : ℚ)) ("alice", ([1] : Emb)) [] 0 1 "simulator" 0
     { EVENTS := [], LAST_SEEN := [] } [1] rfl (by norm_num [bestEntry, scoresOf])⟩

/-- Witness for C8 at a concrete input: replacing an existing entry by
the mean of a fresh sample. -/
theorem enroll_stores_mean_witness :
    ("alice" : String) ≠ "" ∧
    extractAll (fun _ : ℕ => Except.ok ([2, 4] : Emb)) [0] = Except.ok [[2, 4]] ∧
    ([[2, 4]] : List Emb) ≠ [] ∧
    (enroll (fun _ : ℕ => Except.ok ([2, 4] : Emb)) "alice" [0] [("alice", [9, 9])]
       = Except.ok
         ({ enrolled := "alice", images := ([[2, 4]] : List Emb).length,
            people := (dictSet [("alice", [9, 9])] "alice" (vecMean [[2, 4]])).map
              Prod.fst },
          dictSet [("alice", [9, 9])] "alice" (vecMean [[2, 4]])) ∧
     dictGet (dictSet [("alice", [9, 9])] "alice" (vecMean [[2, 4]])) "alice"
       = some (vecMean [[2, 4]])) :=
  ⟨by decide, rfl, by decide,
   enroll_stores_mean (fun _ : ℕ => Except.ok ([2, 4] : Emb)) "alice" [0]
     [[2, 4]] [("alice", [9, 9])] (by decide) rfl (by decide)⟩

/-- Witness for C9 at a concrete input: a cache holding one key,
exercised through all three operations. -/
theorem last_seen_monotone_witness :
    dictGet ({ EVENTS := [], LAST_SEEN := [(("a", "cam"), 5)] } : ServerState).LAST_SEEN
        ("a", "cam") = some 5 ∧
    ((∃ cur, dictGet (_should_log
          ({ EVENTS := [], LAST_SEEN := [(("a", "cam"), 5)] } : ServerState).LAST_SEEN
          "a" "cam" 100).2 ("a", "cam") = some cur ∧
        (cur = 5 ∨ 5 + DEDUPE_WINDOW_SEC ≤ cur)) ∧
     (∃ cur, dictGet (add_event
          { person := "a", score := PFloat.val 1, camera := "cam", timestamp := some 7 } 0
          { EVENTS := [], LAST_SEEN := [(("a", "cam"), 5)] }).2.LAST_SEEN
          ("a", "cam") = some cur ∧ (cur = 5 ∨ 5 + DEDUPE_WINDOW_SEC ≤ cur)) ∧
     (∃ cur, dictGet (matchRoute (fun _ : ℕ => Except.ok ([] : Emb))
          (fun _ _ : Emb => (0 : ℚ)) [] 0 0 "cam" 0
          { EVENTS := [], LAST_SEEN := [(("a", "cam"), 5)] }).2.LAST_SEEN
          ("a", "cam") = some cur ∧ (cur = 5 ∨ 5 + DEDUPE_WINDOW_SEC ≤ cur))) :=
  ⟨rfl,
   last_seen_monotone (fun _ : ℕ => Except.ok ([] : Emb)) (fun _ _ : Emb => (0 : ℚ))
     [] 0 0 "a" "cam" 100 0 0
     { person := "a", score := PFloat.val 1, camera := "cam", timestamp := some 7 }
     { EVENTS := [], LAST_SEEN := [(("a", "cam"), 5)] } ("a", "cam") 5 rfl⟩

end GymApi
